import Mathlib

/-
Shallow embedding of the jochasinga/ecc Rust repository.

The repository holds two drafts of the same design:
  * src/ecc.rs        - FieldElement over usize, Point over Option<isize> coordinates,
                        free functions find_slope / find_sum_of_points, Point::new
                        returning Result, and an Add impl for Point.
  * src/ecc/field.rs  - FieldElement<BigUint> with add/sub/mul/div/pow and the
                        *_assign variants (namespace EccField below).
  * src/ecc/point.rs  - Point<BigInt> with is_on_curve/identity/new and an Add impl
                        whose chord-and-tangent branch is commented out
                        (namespace EccPoint below).

Conventions of the embedding:
  * BigUint values are Nat, BigInt/isize values are Int; usize arithmetic is
    modelled with wrap-around modulo 2^64 (release semantics) and the
    "as isize" cast as two's-complement reinterpretation.
  * A Rust function that can abort is modelled as RustResult: `ok` for a normal
    return, `err` for a Result::Err / anyhow error returned to the caller, and
    `panicked` for an unrecoverable abort (an explicit Rust panic, an
    expect/unwrap failure, BigUint underflow, integer division by zero, or a
    zero modulus passed to modpow).
  * BigUint::modpow is modelled by modpow below, a binary square-and-multiply
    loop; the fuel argument of modpowAux only makes the e/2 recursion
    structural, with fuel e it is never exhausted (modpowAux_eq).
  * Rust isize division truncates toward zero, which is Int.tdiv; isize
    rem_euclid is Int.emod (least non-negative residue).
-/

inductive RustResult (α : Type) where
  | ok : α → RustResult α
  | err : String → RustResult α
  | panicked : String → RustResult α
  deriving DecidableEq

/-- Binary (square-and-multiply) modular exponentiation, the model of
BigUint::modpow.  Recursion is on the fuel so that the definition is
structural and evaluates inside the kernel. -/
def modpowAux : Nat → Nat → Nat → Nat → Nat
  | 0, _, _, m => 1 % m
  | fuel + 1, b, e, m =>
    if e = 0 then 1 % m
    else
      let r := modpowAux fuel (b * b % m) (e / 2) m
      if e % 2 = 1 then r * b % m else r

def modpow (b e m : Nat) : Nat := modpowAux e b e m

theorem modpowAux_eq (fuel : Nat) : ∀ b e : Nat, e ≤ fuel → ∀ m : Nat, 0 < m →
    modpowAux fuel b e m = b ^ e % m := by
  induction fuel with
  | zero =>
    intro b e he m hm
    have h0 : e = 0 := Nat.le_zero.mp he
    subst h0
    simp [modpowAux]
  | succ f ih =>
    intro b e he m hm
    by_cases h0 : e = 0
    · subst h0; simp [modpowAux]
    · have hlt : e / 2 ≤ f := by omega
      have hr := ih (b * b % m) (e / 2) hlt m hm
      by_cases hodd : e % 2 = 1
      · simp only [modpowAux, h0, if_false, hodd, if_true]
        rw [hr, ← Nat.pow_mod, Nat.mod_mul_mod, ← pow_two, ← pow_mul, ← pow_succ]
        have he2 : 2 * (e / 2) + 1 = e := by omega
        rw [he2]
      · simp only [modpowAux, h0, if_false, hodd, if_false]
        rw [hr, ← Nat.pow_mod, ← pow_two, ← pow_mul]
        have he2 : 2 * (e / 2) = e := by omega
        rw [he2]

theorem modpow_eq (b e m : Nat) (hm : 0 < m) : modpow b e m = b ^ e % m :=
  modpowAux_eq e b e le_rfl m hm

theorem modpow_one (x m : Nat) : modpow x 1 m = x % m := by
  show 1 % m * x % m = x % m
  match m with
  | 0 => simp
  | 1 => simp [Nat.mod_one]
  | m + 2 =>
    have h1 : 1 % (m + 2) = 1 := Nat.mod_eq_of_lt (by omega)
    rw [h1, one_mul]

/-! ## src/ecc/field.rs : FieldElement<BigUint> -/

namespace EccField

structure FieldElement where
  num : Nat
  prime : Nat
  deriving DecidableEq

/-- FieldElement::new : rejects num >= prime with an anyhow error. -/
def FieldElement.new (num prime : Nat) : RustResult FieldElement :=
  if num ≥ prime then .err "Num not in field range" else .ok ⟨num, prime⟩

/-- FieldElement::pow : reduces the exponent modulo prime - 1 and then raises
with modpow.  prime = 0 underflows the BigUint subtraction prime - 1;
prime = 1 passes a zero modulus to exp.modpow, both aborts. -/
def FieldElement.pow (self : FieldElement) (exp : Nat) : RustResult FieldElement :=
  if self.prime = 0 then .panicked "attempt to subtract with overflow"
  else if self.prime = 1 then .panicked "attempt to calculate the remainder with a divisor of zero"
  else
    .ok ⟨modpow self.num (modpow exp 1 (self.prime - 1)) self.prime, self.prime⟩

/-- Add for FieldElement<BigUint>: panics on modulus mismatch. -/
def FieldElement.add (self other : FieldElement) : RustResult FieldElement :=
  if self.prime ≠ other.prime then .panicked "Expect primes to be equal"
  else if self.prime = 0 then .panicked "attempt to calculate the remainder with a divisor of zero"
  else .ok ⟨modpow (self.num + other.num) 1 self.prime, self.prime⟩

/-- Sub for FieldElement<BigUint>: panics on modulus mismatch, and the BigUint
subtraction self.num - other.num aborts when the result would be negative. -/
def FieldElement.sub (self other : FieldElement) : RustResult FieldElement :=
  if self.prime ≠ other.prime then .panicked "Expect primes to be equal"
  else if self.num < other.num then .panicked "attempt to subtract with overflow"
  else if self.prime = 0 then .panicked "attempt to calculate the remainder with a divisor of zero"
  else .ok ⟨modpow (self.num - other.num) 1 self.prime, self.prime⟩

/-- Mul for FieldElement<BigUint>: panics on modulus mismatch. -/
def FieldElement.mul (self other : FieldElement) : RustResult FieldElement :=
  if self.prime ≠ other.prime then .panicked "Expect primes to be equal"
  else if self.prime = 0 then .panicked "attempt to calculate the remainder with a divisor of zero"
  else .ok ⟨modpow (self.num * other.num) 1 self.prime, self.prime⟩

/-- Div for FieldElement<BigUint>: panics on modulus mismatch, converts the
divisor's modulus to u32 (expect-panic when it does not fit, i.e. when it is
at least 2^32), computes order - 2 in u32 (overflow abort when the modulus is
below 2), raises with the full BigUint power and reduces with modpow. -/
def FieldElement.div (self other : FieldElement) : RustResult FieldElement :=
  if self.prime ≠ other.prime then .panicked "Expect primes to be equal"
  else if other.prime ≥ 2 ^ 32 then .panicked "fail to cast to u32"
  else if other.prime < 2 then .panicked "attempt to subtract with overflow"
  else .ok ⟨modpow (self.num * other.num ^ (other.prime - 2)) 1 other.prime, self.prime⟩

/-- DivAssign for FieldElement<BigUint>: same checks as Div; the written-back
value stores other.prime. -/
def FieldElement.div_assign (self other : FieldElement) : RustResult FieldElement :=
  if self.prime ≠ other.prime then .panicked "Expect primes to be equal"
  else if other.prime ≥ 2 ^ 32 then .panicked "fail to cast to u32"
  else if other.prime < 2 then .panicked "attempt to subtract with overflow"
  else .ok ⟨modpow (self.num * other.num ^ (other.prime - 2)) 1 other.prime, other.prime⟩

end EccField

/-! ## src/ecc.rs : FieldElement over usize, Point over Option<isize> -/

/-- Two's-complement wrap-around of an exact integer value into the isize
range [-2^63, 2^63) (release semantics).  Wrapping after every intermediate
isize operation agrees with wrapping the exact value once, because
wrap-around is the ring homomorphism onto Z mod 2^64 followed by the choice
of the signed representative, so a whole isize expression is modelled by one
iwrap of its exact value. -/
def iwrap (z : Int) : Int := (z + 2 ^ 63) % 2 ^ 64 - 2 ^ 63

theorem iwrap_eq_self {z : Int} (h1 : -(2 ^ 63) ≤ z) (h2 : z < 2 ^ 63) : iwrap z = z := by
  have hnn : (0 : Int) ≤ z + 2 ^ 63 := by linarith
  have hlt : z + 2 ^ 63 < 2 ^ 64 := by
    have he : (2 : Int) ^ 64 = 2 ^ 63 + 2 ^ 63 := by norm_num
    linarith
  rw [iwrap, Int.emod_eq_of_lt hnn hlt]
  ring

namespace Ecc

structure FieldElement where
  num : Nat
  prime : Nat
  deriving DecidableEq

/-- Add for the usize FieldElement: panics on modulus mismatch; the usize sum
wraps modulo 2^64 and rem_euclid on usize is plain %, which panics on a zero
modulus. -/
def FieldElement.add (self other : FieldElement) : RustResult FieldElement :=
  if self.prime ≠ other.prime then .panicked "Expect primes to be equal"
  else if self.prime = 0 then .panicked "attempt to calculate the remainder with a divisor of zero"
  else .ok ⟨(self.num + other.num) % 2 ^ 64 % self.prime, self.prime⟩

/-- Sub for the usize FieldElement: (self.0 - other.0) as isize, then
rem_euclid(self.1 as isize).  The usize difference wraps modulo 2^64 (release
semantics), the "as isize" cast reinterprets the bits as two's complement,
and rem_euclid keeps the least non-negative residue. -/
def FieldElement.sub (self other : FieldElement) : RustResult FieldElement :=
  if self.prime ≠ other.prime then .panicked "Expect primes to be equal"
  else
    let d : Nat := (self.num + 2 ^ 64 - other.num) % 2 ^ 64
    let diff : Int := if d < 2 ^ 63 then (d : Int) else (d : Int) - 2 ^ 64
    let m : Int := if self.prime < 2 ^ 63 then (self.prime : Int) else (self.prime : Int) - 2 ^ 64
    if m = 0 then .panicked "attempt to calculate the remainder with a divisor of zero"
    else .ok ⟨(diff.emod m).toNat, self.prime⟩

/-- Mul for the usize FieldElement: panics on modulus mismatch; the usize
product wraps modulo 2^64 (release semantics) and rem_euclid panics on a zero
modulus. -/
def FieldElement.mul (self other : FieldElement) : RustResult FieldElement :=
  if self.prime ≠ other.prime then .panicked "Expect primes to be equal"
  else if self.prime = 0 then .panicked "attempt to calculate the remainder with a divisor of zero"
  else .ok ⟨self.num * other.num % 2 ^ 64 % self.prime, self.prime⟩

/-- FieldElement::pow in ecc.rs: the base is widened to u128 and raised with
u128::pow, whose square-and-multiply loop wraps at every multiplication in
release builds, i.e. it is modular exponentiation modulo 2^128 (modpow);
rem_euclid then reduces by the modulus (panicking when it is zero), and the
try_into back to usize cannot fail because the result is below the modulus.
The source's exponent is a u32; the model takes any Nat. -/
def FieldElement.pow (self : FieldElement) (exp : Nat) : RustResult FieldElement :=
  if self.prime = 0 then .panicked "attempt to calculate the remainder with a divisor of zero"
  else .ok ⟨modpow self.num exp (2 ^ 128) % self.prime, self.prime⟩

/-- Div for the usize FieldElement: panics on modulus mismatch; the modulus
is cast to u32 with `as`, which TRUNCATES silently modulo 2^32 (it never
aborts, unlike the BigUint draft's expect); the u32 subtraction of 2 wraps;
usize::pow wraps at every multiplication, i.e. modular exponentiation modulo
2^64; the product wraps; the final % panics on a zero modulus. -/
def FieldElement.div (self other : FieldElement) : RustResult FieldElement :=
  if self.prime ≠ other.prime then .panicked "Expect primes to be equal"
  else if other.prime = 0 then .panicked "attempt to calculate the remainder with a divisor of zero"
  else
    .ok ⟨self.num * modpow other.num ((other.prime % 2 ^ 32 + 2 ^ 32 - 2) % 2 ^ 32) (2 ^ 64)
           % 2 ^ 64 % other.prime,
         self.prime⟩

structure Point where
  x : Option Int
  y : Option Int
  a : Int
  b : Int
  deriving DecidableEq

/-- find_slope: (y2 - y1) / (x2 - x1) with truncating isize division, which
panics when the x coordinates coincide; None when a coordinate is missing. -/
def find_slope (p1 p2 : Point) : RustResult (Option Int) :=
  match p1.x, p1.y, p2.x, p2.y with
  | some x1, some y1, some x2, some y2 =>
    if x2 - x1 = 0 then .panicked "attempt to divide by zero"
    else .ok (some (Int.tdiv (y2 - y1) (x2 - x1)))
  | _, _, _, _ => .ok none

/-- find_sum_of_points: chord formula from the slope; the unwrap calls cannot
fail when the slope is present. -/
def find_sum_of_points (p1 p2 : Point) : RustResult (Option Point) :=
  match find_slope p1 p2 with
  | .ok (some s) =>
    match p1.x, p1.y, p2.x with
    | some x1, some y1, some x2 =>
      let x3 := s ^ 2 - x1 - x2
      .ok (some ⟨some x3, some (s * (x1 - x3) - y1), p1.a, p1.b⟩)
    | _, _, _ => .panicked "called unwrap on a None value"
  | .ok none => .ok none
  | .err msg => .err msg
  | .panicked msg => .panicked msg

/-- Point::new in ecc.rs: Ok for the identity pair (None, None), Ok for an
on-curve coordinate pair, Err (a String, returned to the caller) otherwise.
The curve check y^2 == x^3 + a*x + b runs in isize arithmetic, so both sides
wrap into the isize range (release semantics), modelled by iwrap of the
exact values. -/
def Point.new (x y : Option Int) (a b : Int) : RustResult Point :=
  match x, y with
  | none, none => .ok ⟨none, none, a, b⟩
  | some xv, some yv =>
    if iwrap (yv ^ 2) = iwrap (xv ^ 3 + a * xv + b) then .ok ⟨some xv, some yv, a, b⟩
    else .err "is not on the curve"
  | _, _ => .err "is not on the curve"

/-- Add for Point in ecc.rs: the curve check requires BOTH coefficients to
differ before panicking; identity operands are returned directly; otherwise
the chord sum is computed (which panics on equal x coordinates via
find_slope). -/
def Point.add (self other : Point) : RustResult Point :=
  if self.a ≠ other.a ∧ self.b ≠ other.b then .panicked "Points are not on the same curve"
  else
    match self.x, other.x with
    | none, _ => .ok other
    | _, none => .ok self
    | _, _ =>
      match find_sum_of_points self other with
      | .ok none => .panicked "Points are not on the same curve"
      | .ok (some p) => .ok p
      | .err msg => .err msg
      | .panicked msg => .panicked msg

end Ecc

/-! ## src/ecc/point.rs : Point<BigInt> -/

namespace EccPoint

structure Point where
  x : Option Int
  y : Option Int
  a : Int
  b : Int
  deriving DecidableEq

/-- Point::<BigInt>::is_on_curve. -/
def Point.is_on_curve (x y a b : Int) : Bool :=
  y ^ 2 == x ^ 3 + a * x + b

/-- Point::<BigInt>::identity. -/
def Point.identity (a b : Int) : Point := ⟨none, none, a, b⟩

/-- Point::<BigInt>::new returns Option<Self>: None (after printing) for the
identity pair, Some for an on-curve pair, and PANICS for an off-curve or
mixed pair. -/
def Point.new (x y : Option Int) (a b : Int) : RustResult (Option Point) :=
  match x, y with
  | none, none => .ok none
  | some xv, some yv =>
    if Point.is_on_curve xv yv a b then .ok (some ⟨some xv, some yv, a, b⟩)
    else .panicked "is not on the curve"
  | _, _ => .panicked "is not on the curve"

/-- Add for Point<BigInt>: curve check with AND (both coefficients must
differ to panic); vertical chord gives the identity; identity operands are
passed through; every remaining case falls through to `other` because the
chord-and-tangent code is commented out in the source. -/
def Point.add (self other : Point) : RustResult Point :=
  if self.a ≠ other.a ∧ self.b ≠ other.b then .panicked "Points are not on the same curve"
  else if self.x = other.x ∧ self.y ≠ other.y then .ok (Point.identity self.a self.b)
  else if self.x = none then .ok other
  else if other.x = none then .ok self
  else .ok other

end EccPoint


/-! ## Number-theoretic facts used by the field theorems -/

theorem coprime_of_lt_prime {b p : Nat} (hb0 : b ≠ 0) (hb : b < p) (hp : p.Prime) :
    Nat.Coprime b p := by
  have hnd : ¬ p ∣ b := fun hdvd => by
    have := Nat.le_of_dvd (Nat.pos_of_ne_zero hb0) hdvd
    omega
  exact ((Nat.Prime.coprime_iff_not_dvd hp).mpr hnd).symm

theorem fermat_little {b p : Nat} (hp : p.Prime) (hb : b < p) (hb0 : b ≠ 0) :
    b ^ (p - 1) ≡ 1 [MOD p] := by
  have h := Nat.ModEq.pow_totient (coprime_of_lt_prime hb0 hb hp)
  rwa [Nat.totient_prime hp] at h

/-- Fermat inversion: multiplying by b^(p-2) and then by b gives back a. -/
theorem mul_inv_mod_cancel {p a b : Nat} (hp : p.Prime) (ha : a < p) (hb : b < p)
    (hb0 : b ≠ 0) : a * b ^ (p - 2) % p * b % p = a := by
  have h2 : 2 ≤ p := hp.two_le
  have hf : b ^ (p - 1) ≡ 1 [MOD p] := fermat_little hp hb hb0
  have step1 : a * b ^ (p - 2) % p * b ≡ a * b ^ (p - 2) * b [MOD p] :=
    (Nat.mod_modEq (a * b ^ (p - 2)) p).mul_right b
  have step2 : a * b ^ (p - 2) * b = a * b ^ (p - 1) := by
    rw [mul_assoc, ← pow_succ]
    have hee : p - 2 + 1 = p - 1 := by omega
    rw [hee]
  have step3 : a * b ^ (p - 1) ≡ a * 1 [MOD p] := hf.mul_left a
  have hfinal : a * b ^ (p - 2) % p * b ≡ a [MOD p] := by
    have := step1.trans (step2 ▸ step3)
    simpa using this
  have hmod : a * b ^ (p - 2) % p * b % p = a % p := hfinal
  rwa [Nat.mod_eq_of_lt ha] at hmod

/-- Reducing the exponent modulo p - 1 does not change the power of a nonzero
residue modulo a prime p. -/
theorem pow_mod_reduce {p v : Nat} (e : Nat) (hp : p.Prime) (hv : v < p) (hv0 : v ≠ 0) :
    v ^ (e % (p - 1)) % p = v ^ e % p := by
  have h2 : 2 ≤ p := hp.two_le
  have hf : v ^ (p - 1) ≡ 1 [MOD p] := fermat_little hp hv hv0
  have hdecomp : (p - 1) * (e / (p - 1)) + e % (p - 1) = e := Nat.div_add_mod e (p - 1)
  have hq : v ^ ((p - 1) * (e / (p - 1))) ≡ 1 [MOD p] := by
    rw [pow_mul]
    simpa using hf.pow (e / (p - 1))
  have hsplit : v ^ e = v ^ ((p - 1) * (e / (p - 1))) * v ^ (e % (p - 1)) := by
    rw [← pow_add, hdecomp]
  have h : v ^ e ≡ v ^ (e % (p - 1)) [MOD p] := by
    rw [hsplit]
    simpa using hq.mul_right (v ^ (e % (p - 1)))
  exact (h.symm : v ^ (e % (p - 1)) % p = v ^ e % p)

/-! ## A concrete prime above 2^32, certified through Lucas primality -/

theorem zmod_pow_cast (p a e c : Nat) (hp : 0 < p) (h : modpow a e p = c) :
    (a : ZMod p) ^ e = (c : ZMod p) := by
  subst h
  rw [modpow_eq a e p hp]
  rw [(ZMod.natCast_eq_natCast_iff (a ^ e % p) (a ^ e) p).mpr (Nat.mod_modEq (a ^ e) p)]
  push_cast
  ring

theorem zmod_pow_cast_ne_one (p a e c : Nat) (hp1 : 1 < p) (h : modpow a e p = c)
    (hc : c ≠ 1) (hcp : c < p) : (a : ZMod p) ^ e ≠ 1 := by
  rw [zmod_pow_cast p a e c (by omega) h]
  intro heq
  have hf : Fact (1 < p) := ⟨hp1⟩
  have hval := congrArg ZMod.val heq
  rw [ZMod.val_cast_of_lt hcp, ZMod.val_one] at hval
  exact hc hval

/-- 77309411329 = 18 * 2^32 + 1 is prime; its predecessor factors as
2^33 * 3^2 and 7 is a primitive root, so Lucas primality applies. -/
theorem prime_77309411329 : Nat.Prime 77309411329 := by
  have hfac : ∀ q : Nat, q.Prime → q ∣ 77309411328 → q = 2 ∨ q = 3 := by
    intro q hq hd
    have h2 : (77309411328 : Nat) = 2 ^ 33 * 3 ^ 2 := by norm_num
    rw [h2] at hd
    rcases (Nat.Prime.dvd_mul hq).mp hd with h | h
    · exact Or.inl ((Nat.prime_dvd_prime_iff_eq hq (by norm_num)).mp (hq.dvd_of_dvd_pow h))
    · exact Or.inr ((Nat.prime_dvd_prime_iff_eq hq (by norm_num)).mp (hq.dvd_of_dvd_pow h))
  apply lucas_primality 77309411329 (7 : ZMod 77309411329)
  · have h := zmod_pow_cast 77309411329 7 77309411328 1 (by norm_num) (by decide)
    simpa using h
  · intro q hq hd
    rcases hfac q hq (by simpa using hd) with hq2 | hq3
    · subst hq2
      have h := zmod_pow_cast_ne_one 77309411329 7 (77309411328 / 2) 77309411328
        (by norm_num) (by decide) (by norm_num) (by norm_num)
      simpa using h
    · subst hq3
      have h := zmod_pow_cast_ne_one 77309411329 7 (77309411328 / 3) 67259910245
        (by norm_num) (by decide) (by norm_num) (by norm_num)
      simpa using h

/-- 2147483647 = 2^31 - 1 is prime; its predecessor factors as
2 * 3^2 * 7 * 11 * 31 * 151 * 331 and 7 is a primitive root, so Lucas
primality applies. -/
theorem prime_2147483647 : Nat.Prime 2147483647 := by
  have hfac : ∀ q : Nat, q.Prime → q ∣ 2147483646 →
      q = 2 ∨ q = 3 ∨ q = 7 ∨ q = 11 ∨ q = 31 ∨ q = 151 ∨ q = 331 := by
    intro q hq hd
    have h2 : (2147483646 : Nat) = 2 * (3 ^ 2 * (7 * (11 * (31 * (151 * 331))))) := by norm_num
    rw [h2] at hd
    rcases (Nat.Prime.dvd_mul hq).mp hd with h | h
    · exact Or.inl ((Nat.prime_dvd_prime_iff_eq hq (by norm_num)).mp h)
    rcases (Nat.Prime.dvd_mul hq).mp h with h | h
    · exact Or.inr (Or.inl
        ((Nat.prime_dvd_prime_iff_eq hq (by norm_num)).mp (hq.dvd_of_dvd_pow h)))
    rcases (Nat.Prime.dvd_mul hq).mp h with h | h
    · exact Or.inr (Or.inr (Or.inl ((Nat.prime_dvd_prime_iff_eq hq (by norm_num)).mp h)))
    rcases (Nat.Prime.dvd_mul hq).mp h with h | h
    · exact Or.inr (Or.inr (Or.inr (Or.inl
        ((Nat.prime_dvd_prime_iff_eq hq (by norm_num)).mp h))))
    rcases (Nat.Prime.dvd_mul hq).mp h with h | h
    · exact Or.inr (Or.inr (Or.inr (Or.inr (Or.inl
        ((Nat.prime_dvd_prime_iff_eq hq (by norm_num)).mp h)))))
    rcases (Nat.Prime.dvd_mul hq).mp h with h | h
    · exact Or.inr (Or.inr (Or.inr (Or.inr (Or.inr (Or.inl
        ((Nat.prime_dvd_prime_iff_eq hq (by norm_num)).mp h))))))
    · exact Or.inr (Or.inr (Or.inr (Or.inr (Or.inr (Or.inr
        ((Nat.prime_dvd_prime_iff_eq hq (by norm_num)).mp h))))))
  apply lucas_primality 2147483647 (7 : ZMod 2147483647)
  · have h := zmod_pow_cast 2147483647 7 2147483646 1 (by norm_num) (by decide)
    simpa using h
  · intro q hq hd
    rcases hfac q hq (by simpa using hd) with hqe | hqe | hqe | hqe | hqe | hqe | hqe
    · subst hqe
      have h := zmod_pow_cast_ne_one 2147483647 7 (2147483646 / 2) 2147483646
        (by norm_num) (by decide) (by norm_num) (by norm_num)
      simpa using h
    · subst hqe
      have h := zmod_pow_cast_ne_one 2147483647 7 (2147483646 / 3) 1513477735
        (by norm_num) (by decide) (by norm_num) (by norm_num)
      simpa using h
    · subst hqe
      have h := zmod_pow_cast_ne_one 2147483647 7 (2147483646 / 7) 1205362885
        (by norm_num) (by decide) (by norm_num) (by norm_num)
      simpa using h
    · subst hqe
      have h := zmod_pow_cast_ne_one 2147483647 7 (2147483646 / 11) 1969212174
        (by norm_num) (by decide) (by norm_num) (by norm_num)
      simpa using h
    · subst hqe
      have h := zmod_pow_cast_ne_one 2147483647 7 (2147483646 / 31) 512
        (by norm_num) (by decide) (by norm_num) (by norm_num)
      simpa using h
    · subst hqe
      have h := zmod_pow_cast_ne_one 2147483647 7 (2147483646 / 151) 535044134
        (by norm_num) (by decide) (by norm_num) (by norm_num)
      simpa using h
    · subst hqe
      have h := zmod_pow_cast_ne_one 2147483647 7 (2147483646 / 331) 1761855083
        (by norm_num) (by decide) (by norm_num) (by norm_num)
      simpa using h

/-! ## Claims -/

/-- C1: doubling an affine point with nonzero y is claimed to produce the
tangent-rule point (x3, y3), never the identity and never P itself.  The code
does the opposite: Point<BigInt>::add falls through to `other` and returns P
itself, and the ecc.rs draft aborts with a division by zero; the tangent-rule
result for P = (-1, -1) on a = 5, b = 7 would be (18, 77), which is on the
curve and distinct from P. -/
theorem c1_doubling_returns_operand :
    EccPoint.Point.add ⟨some (-1), some (-1), 5, 7⟩ ⟨some (-1), some (-1), 5, 7⟩ =
      .ok ⟨some (-1), some (-1), 5, 7⟩ ∧
    Ecc.Point.add ⟨some (-1), some (-1), 5, 7⟩ ⟨some (-1), some (-1), 5, 7⟩ =
      .panicked "attempt to divide by zero" ∧
    EccPoint.Point.is_on_curve (-1) (-1) 5 7 = true ∧
    EccPoint.Point.is_on_curve 18 77 5 7 = true ∧
    (⟨some 18, some 77, 5, 7⟩ : EccPoint.Point) ≠ ⟨some (-1), some (-1), 5, 7⟩ := by
  decide

/-- C2: point addition is claimed to reject any pair of points whose curve
coefficients differ, never silently returning an operand.  The code tests
a1 != a2 AND b1 != b2, so points whose curves differ in only one coefficient
are combined: an affine point on (5, 7) plus the identity of (6, 7) silently
returns the first operand (in both drafts), and even a full mismatch is an
abort, not a typed error. -/
theorem c2_curve_mismatch_not_rejected :
    EccPoint.Point.add ⟨some (-1), some (-1), 5, 7⟩ ⟨none, none, 6, 7⟩ =
      .ok ⟨some (-1), some (-1), 5, 7⟩ ∧
    Ecc.Point.add ⟨some (-1), some (-1), 5, 7⟩ ⟨none, none, 6, 7⟩ =
      .ok ⟨some (-1), some (-1), 5, 7⟩ ∧
    EccPoint.Point.add ⟨some (-1), some (-1), 5, 7⟩ ⟨none, none, 6, 8⟩ =
      .panicked "Points are not on the same curve" := by
  decide

/-- C3: point addition is claimed to be commutative and associative.  For the
on-curve points P = (-1, -1) and Q = (2, 5) on a = 5, b = 7, the
Point<BigInt> addition returns Q for P + Q and P for Q + P, so it is not
commutative. -/
theorem c3_addition_not_commutative :
    EccPoint.Point.add ⟨some (-1), some (-1), 5, 7⟩ ⟨some 2, some 5, 5, 7⟩ =
      .ok ⟨some 2, some 5, 5, 7⟩ ∧
    EccPoint.Point.add ⟨some 2, some 5, 5, 7⟩ ⟨some (-1), some (-1), 5, 7⟩ =
      .ok ⟨some (-1), some (-1), 5, 7⟩ ∧
    EccPoint.Point.is_on_curve 2 5 5 7 = true ∧
    (⟨some (-1), some (-1), 5, 7⟩ : EccPoint.Point) ≠ ⟨some 2, some 5, 5, 7⟩ := by
  decide

/-- C5 counterexample: FieldElement<BigUint> subtraction with
a.value < b.value aborts on the BigUint underflow instead of returning the
Euclidean remainder (which would be 16 for 2 - 5 mod 19). -/
theorem c5_biguint_sub_underflow_panics :
    EccField.FieldElement.sub ⟨2, 19⟩ ⟨5, 19⟩ =
      .panicked "attempt to subtract with overflow" := by
  decide

/-- C5 (amended): in the usize draft (ecc.rs), for operands below the modulus
and a modulus below 2^63, subtraction returns the Euclidean remainder of
(a.value - b.value) modulo the modulus, handling the negative intermediate
through the wrap-around and the isize reinterpretation; the BigUint draft
instead aborts whenever a.value < b.value. -/
theorem c5_ecc_sub_euclidean (a b p : Nat) (ha : a < p) (hb : b < p) (hp : p < 2 ^ 63) :
    Ecc.FieldElement.sub ⟨a, p⟩ ⟨b, p⟩ =
      .ok ⟨(((a : Int) - (b : Int)).emod (p : Int)).toNat, p⟩ := by
  have h63 : (2 : Nat) ^ 63 = 9223372036854775808 := by norm_num
  have h64 : (2 : Nat) ^ 64 = 18446744073709551616 := by norm_num
  have h64i : (2 : Int) ^ 64 = 18446744073709551616 := by norm_num
  simp only [Ecc.FieldElement.sub]
  rw [if_neg (by simp)]
  have hm : (if p < 2 ^ 63 then (p : Int) else (p : Int) - 2 ^ 64) = (p : Int) := if_pos hp
  rw [hm]
  rw [if_neg (show ¬((p : Int) = 0) by exact_mod_cast (by omega : p ≠ 0))]
  have hdiff : (if (a + 2 ^ 64 - b) % 2 ^ 64 < 2 ^ 63
      then (((a + 2 ^ 64 - b) % 2 ^ 64 : Nat) : Int)
      else (((a + 2 ^ 64 - b) % 2 ^ 64 : Nat) : Int) - 2 ^ 64) = (a : Int) - (b : Int) := by
    rcases Nat.lt_or_ge a b with hab | hab
    · have hd : (a + 2 ^ 64 - b) % 2 ^ 64 = a + 2 ^ 64 - b := by
        rw [h64] at *; omega
      rw [hd, if_neg (by rw [h63, h64] at *; omega), h64i]
      rw [h64] at *; omega
    · have hd : (a + 2 ^ 64 - b) % 2 ^ 64 = a - b := by
        rw [h64] at *; omega
      rw [hd, if_pos (by rw [h63] at *; omega)]
      omega
  rw [hdiff]

/-- C5 witness: FieldElement(2, 19) - FieldElement(5, 19) = FieldElement(16, 19)
in the usize draft. -/
theorem c5_ecc_sub_euclidean_witness :
    Ecc.FieldElement.sub ⟨2, 19⟩ ⟨5, 19⟩ = .ok ⟨16, 19⟩ := by
  have h := c5_ecc_sub_euclidean 2 5 19 (by norm_num) (by norm_num) (by norm_num)
  rw [h]
  decide

/-- C6 counterexample: the BigUint pow at the zero element with exponent
p - 1 returns 1, while the mathematical power 0^18 mod 19 is 0; and the
ecc.rs pow overflows its u128 accumulator: (2, 19).pow(200) wraps
2^200 to 0 modulo 2^128 and returns 0, while 2^200 mod 19 is 4. -/
theorem c6_pow_zero_base_counterexample :
    (EccField.FieldElement.pow ⟨0, 19⟩ 18 = .ok ⟨1, 19⟩ ∧ (0 : Nat) ^ 18 % 19 = 0) ∧
    (Ecc.FieldElement.pow ⟨2, 19⟩ 200 = .ok ⟨0, 19⟩ ∧ (2 : Nat) ^ 200 % 19 = 4) := by
  decide

/-- C6 (amended): the BigUint pow reduces the exponent modulo prime - 1 and
raises with binary square-and-multiply exponentiation; for a prime modulus
and a nonzero value v < p its result is exactly v^e mod p, for every
exponent.  The ecc.rs pow accumulates in a bounded u128 with no exponent
reduction, so it returns v^e mod p only while v^e fits in the accumulator,
i.e. while v^e < 2^128. -/
theorem c6_pow_correct_nonzero (v p e : Nat) (hp : Nat.Prime p) (hv : v < p) (hv0 : v ≠ 0) :
    EccField.FieldElement.pow ⟨v, p⟩ e = .ok ⟨v ^ e % p, p⟩ ∧
    (v ^ e < 2 ^ 128 → Ecc.FieldElement.pow ⟨v, p⟩ e = .ok ⟨v ^ e % p, p⟩) := by
  have h2 : 2 ≤ p := hp.two_le
  constructor
  · simp only [EccField.FieldElement.pow]
    rw [if_neg (by omega), if_neg (by omega), modpow_one, modpow_eq v (e % (p - 1)) p (by omega),
      pow_mod_reduce e hp hv hv0]
  · intro hfit
    simp only [Ecc.FieldElement.pow]
    rw [if_neg (by omega), modpow_eq v e (2 ^ 128) (by norm_num), Nat.mod_eq_of_lt hfit]

/-- C6 witness: 2^5 = 13 in F_19, in both implementations. -/
theorem c6_pow_correct_nonzero_witness :
    EccField.FieldElement.pow ⟨2, 19⟩ 5 = .ok ⟨13, 19⟩ ∧
    Ecc.FieldElement.pow ⟨2, 19⟩ 5 = .ok ⟨13, 19⟩ := by
  have h := c6_pow_correct_nonzero 2 19 5 (by norm_num) (by norm_num) (by norm_num)
  constructor
  · rw [h.1]; decide
  · rw [h.2 (by norm_num)]; decide

/-- C7 counterexample: both cited Div impls break the claimed law at a prime
modulus.  At 77309411329 >= 2^32 the BigUint div aborts on the u32 cast
instead of computing the Fermat inverse.  At the prime 2147483647 < 2^32 with
a = 1, b = 2, the ecc.rs div wraps the usize power 2^2147483645 to 0, returns
FieldElement(0), and multiplying back by b gives 0, not a = 1; the true
Fermat inverse modpow 2 (p-2) p (equal to 2^(p-2) mod p by modpow_eq) is
1073741824, not 0.  For p >= 2^32 the ecc.rs cast would truncate silently
rather than abort. -/
theorem c7_div_large_prime_counterexample :
    (Nat.Prime 77309411329 ∧
      EccField.FieldElement.div ⟨2, 77309411329⟩ ⟨7, 77309411329⟩ =
        .panicked "fail to cast to u32") ∧
    (Nat.Prime 2147483647 ∧
      Ecc.FieldElement.div ⟨1, 2147483647⟩ ⟨2, 2147483647⟩ = .ok ⟨0, 2147483647⟩ ∧
      Ecc.FieldElement.mul ⟨0, 2147483647⟩ ⟨2, 2147483647⟩ = .ok ⟨0, 2147483647⟩ ∧
      modpow 2 (2147483647 - 2) 2147483647 = 1073741824) :=
  ⟨⟨prime_77309411329, by decide⟩, ⟨prime_2147483647, by decide, by decide, by decide⟩⟩

/-- C7 (amended): for the BigUint implementation, with a prime modulus
p < 2^32 and b.value nonzero, division returns a * b^(p-2) mod p and
multiplying the quotient back by b recovers a, while for moduli of 2^32 or
more it aborts on the u32 cast.  The ecc.rs implementation satisfies the same
law only while the usize accumulator does not overflow, i.e. while b^(p-2)
and a * b^(p-2) stay below 2^64; beyond that its wrapping power falsifies the
law, and for p >= 2^32 its `as u32` cast truncates silently instead of
aborting. -/
theorem c7_div_inverse_law (a b p : Nat) (hp : Nat.Prime p) (hlt : p < 2 ^ 32)
    (ha : a < p) (hb : b < p) (hb0 : b ≠ 0) :
    EccField.FieldElement.div ⟨a, p⟩ ⟨b, p⟩ = .ok ⟨a * b ^ (p - 2) % p, p⟩ ∧
    EccField.FieldElement.mul ⟨a * b ^ (p - 2) % p, p⟩ ⟨b, p⟩ = .ok ⟨a, p⟩ ∧
    (b ^ (p - 2) < 2 ^ 64 → a * b ^ (p - 2) < 2 ^ 64 →
      Ecc.FieldElement.div ⟨a, p⟩ ⟨b, p⟩ = .ok ⟨a * b ^ (p - 2) % p, p⟩ ∧
      Ecc.FieldElement.mul ⟨a * b ^ (p - 2) % p, p⟩ ⟨b, p⟩ = .ok ⟨a, p⟩) := by
  have h2 : 2 ≤ p := hp.two_le
  refine ⟨?_, ?_, ?_⟩
  · simp only [EccField.FieldElement.div]
    rw [if_neg (by simp), if_neg (by omega), if_neg (by omega), modpow_one]
  · simp only [EccField.FieldElement.mul]
    rw [if_neg (by simp), if_neg (by omega), modpow_one,
      mul_inv_mod_cancel hp ha hb hb0]
  · intro hpow hmul
    have hexp : (p % 2 ^ 32 + 2 ^ 32 - 2) % 2 ^ 32 = p - 2 := by
      have h32 : (2 : Nat) ^ 32 = 4294967296 := by norm_num
      have hlt2 : p < 4294967296 := by rw [h32] at hlt; exact hlt
      rw [h32]
      omega
    constructor
    · simp only [Ecc.FieldElement.div]
      rw [if_neg (by simp), if_neg (by omega), hexp,
        modpow_eq b (p - 2) (2 ^ 64) (by norm_num),
        Nat.mod_eq_of_lt hpow, Nat.mod_eq_of_lt hmul]
    · simp only [Ecc.FieldElement.mul]
      rw [if_neg (by simp), if_neg (by omega)]
      have hxp : a * b ^ (p - 2) % p < p := Nat.mod_lt _ (by omega)
      have hfit : a * b ^ (p - 2) % p * b < 2 ^ 64 := by
        calc a * b ^ (p - 2) % p * b
            < p * p := mul_lt_mul'' hxp hb (Nat.zero_le _) (Nat.zero_le _)
          _ < 2 ^ 32 * 2 ^ 32 := mul_lt_mul'' hlt hlt (Nat.zero_le _) (Nat.zero_le _)
          _ = 2 ^ 64 := by norm_num
      rw [Nat.mod_eq_of_lt hfit, mul_inv_mod_cancel hp ha hb hb0]

/-- C7 witness: FieldElement(2, 19) / FieldElement(7, 19) = FieldElement(3, 19)
and multiplying back by 7 recovers 2, in both implementations. -/
theorem c7_div_inverse_law_witness :
    EccField.FieldElement.div ⟨2, 19⟩ ⟨7, 19⟩ = .ok ⟨3, 19⟩ ∧
    EccField.FieldElement.mul ⟨3, 19⟩ ⟨7, 19⟩ = .ok ⟨2, 19⟩ ∧
    Ecc.FieldElement.div ⟨2, 19⟩ ⟨7, 19⟩ = .ok ⟨3, 19⟩ ∧
    Ecc.FieldElement.mul ⟨3, 19⟩ ⟨7, 19⟩ = .ok ⟨2, 19⟩ := by
  have h := c7_div_inverse_law 2 7 19 (by norm_num) (by norm_num) (by norm_num)
    (by norm_num) (by norm_num)
  have hecc := h.2.2 (by norm_num) (by norm_num)
  have hval : (2 * 7 ^ (19 - 2) % 19 : Nat) = 3 := by decide
  refine ⟨?_, ?_, ?_, ?_⟩
  · rw [h.1, hval]
  · have hm := h.2.1
    rw [hval] at hm
    exact hm
  · rw [hecc.1, hval]
  · have hm := hecc.2
    rw [hval] at hm
    exact hm

/-- C8 counterexample: in the ecc.rs draft, the vertical chord
Affine(-1,-1) + Affine(-1,1) on a = 5, b = 7 is an abort (division by zero in
find_slope), not the Identity. -/
theorem c8_ecc_vertical_chord_panics :
    Ecc.Point.add ⟨some (-1), some (-1), 5, 7⟩ ⟨some (-1), some 1, 5, 7⟩ =
      .panicked "attempt to divide by zero" := by
  decide

/-- C8 (amended): in the Point<BigInt> implementation, adding two points with
the same x coordinate and different y coordinates on the same curve returns
the Identity point (no abort and no affine result); the ecc.rs draft instead
aborts on such pairs. -/
theorem c8_vertical_chord_identity (x y1 y2 a b : Int) (hy : y1 ≠ y2) :
    EccPoint.Point.add ⟨some x, some y1, a, b⟩ ⟨some x, some y2, a, b⟩ =
      .ok (EccPoint.Point.identity a b) := by
  simp only [EccPoint.Point.add]
  rw [if_neg (fun h => h.1 rfl)]
  rw [if_pos (by simp [hy])]

/-- C8 witness: Affine(-1,-1) + Affine(-1,1) = Identity on a = 5, b = 7. -/
theorem c8_vertical_chord_identity_witness :
    EccPoint.Point.add ⟨some (-1), some (-1), 5, 7⟩ ⟨some (-1), some 1, 5, 7⟩ =
      .ok (EccPoint.Point.identity 5 7) :=
  c8_vertical_chord_identity (-1) (-1) 1 5 7 (by decide)

/-- C9 counterexample: the Point<BigInt> constructor aborts on an off-curve
coordinate pair ((0,0) is not on y^2 = x^3 + 5x + 7) instead of returning a
typed failure. -/
theorem c9_bigint_new_panics_off_curve :
    EccPoint.Point.new (some 0) (some 0) 5 7 = .panicked "is not on the curve" := by
  decide

/-- C9 (amended): the ecc.rs constructor Point::new evaluates the curve check
in wrapping isize arithmetic and returns Ok(point) exactly when the wrapped
sides agree, with a typed, recoverable Err otherwise (and Ok(identity) for
the (None, None) pair); whenever y^2 and x^3 + a*x + b both lie inside the
isize range, so that no intermediate isize operation overflows, the check is
exactly the curve equation.  The Point<BigInt> constructor instead aborts on
off-curve input. -/
theorem c9_point_new_validates (x y a b : Int) (hy : y ^ 2 < 2 ^ 63)
    (hlo : -(2 ^ 63) ≤ x ^ 3 + a * x + b) (hhi : x ^ 3 + a * x + b < 2 ^ 63) :
    (Ecc.Point.new (some x) (some y) a b =
      if y ^ 2 = x ^ 3 + a * x + b then .ok ⟨some x, some y, a, b⟩
      else .err "is not on the curve") ∧
    Ecc.Point.new none none a b = .ok ⟨none, none, a, b⟩ := by
  constructor
  · have e1 : iwrap (y ^ 2) = y ^ 2 :=
      iwrap_eq_self (le_trans (by norm_num) (sq_nonneg y)) hy
    have e2 : iwrap (x ^ 3 + a * x + b) = x ^ 3 + a * x + b := iwrap_eq_self hlo hhi
    simp only [Ecc.Point.new]
    rw [e1, e2]
  · rfl

/-- C9 witness: (-1, -1) is accepted, (0, 0) is rejected with a typed Err,
and (None, None) builds the identity, all on the curve a = 5, b = 7. -/
theorem c9_point_new_validates_witness :
    Ecc.Point.new (some (-1)) (some (-1)) 5 7 = .ok ⟨some (-1), some (-1), 5, 7⟩ ∧
    Ecc.Point.new (some 0) (some 0) 5 7 = .err "is not on the curve" ∧
    Ecc.Point.new none none 5 7 = .ok ⟨none, none, 5, 7⟩ := by
  have h1 := c9_point_new_validates (-1) (-1) 5 7 (by norm_num) (by norm_num) (by norm_num)
  have h2 := c9_point_new_validates 0 0 5 7 (by norm_num) (by norm_num) (by norm_num)
  refine ⟨?_, ?_, h1.2⟩
  · rw [h1.1]
    decide
  · rw [h2.1]
    decide

/-- C10: FieldElement<BigUint> division converts the divisor's modulus to u32
and aborts whenever the shared modulus is at least 2^32, in both div and
div_assign, despite the arbitrary-precision representation. -/
theorem c10_div_large_modulus_aborts (a b : EccField.FieldElement)
    (hpe : a.prime = b.prime) (hge : 2 ^ 32 ≤ b.prime) :
    EccField.FieldElement.div a b = .panicked "fail to cast to u32" ∧
    EccField.FieldElement.div_assign a b = .panicked "fail to cast to u32" := by
  constructor
  · simp only [EccField.FieldElement.div]
    rw [if_neg (by omega), if_pos (by omega)]
  · simp only [EccField.FieldElement.div_assign]
    rw [if_neg (by omega), if_pos (by omega)]

/-- C10 witness: division at the shared modulus 2^32 aborts. -/
theorem c10_div_large_modulus_aborts_witness :
    EccField.FieldElement.div ⟨1, 4294967296⟩ ⟨1, 4294967296⟩ =
      .panicked "fail to cast to u32" ∧
    EccField.FieldElement.div_assign ⟨1, 4294967296⟩ ⟨1, 4294967296⟩ =
      .panicked "fail to cast to u32" :=
  c10_div_large_modulus_aborts ⟨1, 4294967296⟩ ⟨1, 4294967296⟩ rfl (by norm_num)
